import Mathlib

/-!
Verification of the click resource-listing layer (src/command/pods.rs and
src/command/volumes.rs) against its natural-language specification.

The two source files are shallowly embedded below.  Rust `Option<T>` becomes
`Option T`, structs become structures carrying exactly the fields the embedded
functions read, `for` loops with a mutable accumulator become `List.foldl`,
and timestamps (`Time`/`DateTime`) become `Int` with the same total order.
Components of the repository that the claims reference but whose code is not
part of the two files (the generic list pipeline `run_list_command`, the
selection machinery `Env::apply_to_selection`, `KObj::is`) are modelled from
the specification; each such definition says so in its doc comment.
-/

namespace Click

/-- Semantic color set from table.rs (`ColorType`): the variants used by the
embedded sources. -/
inductive ColorType where
  | success
  | warn
  | danger
  | info
deriving DecidableEq

/-- A display cell (`CellSpec`): plain text plus optional semantic foreground
and background colors. -/
structure CellSpec where
  text : String
  fg : Option ColorType
  bg : Option ColorType
deriving DecidableEq

/-- Cell with default styling (the `.into()` conversions of the source). -/
def CellSpec.plain (s : String) : CellSpec := ⟨s, none, none⟩

/-- CellSpec::with_colors. -/
def CellSpec.with_colors (s : String) (fg bg : Option ColorType) : CellSpec :=
  ⟨s, fg, bg⟩

/-- Cell for a timestamp value (the `DateTime.into()` conversion). -/
def cellOfTime (t : Int) : CellSpec := CellSpec.plain (toString t)

/-! ## Resource identity (kobj.rs data seen by the sources) -/

/-- ObjType: the resource-kind tag of a KObj (variants used by the sources). -/
inductive ObjType where
  | Pod (containers : List String)
  | PersistentVolume
  | Node
deriving DecidableEq

/-- KObj: type-erased resource identity. -/
structure KObj where
  name : String
  namespace' : Option String
  typ : ObjType
deriving DecidableEq

/-- Modelled from the spec: `KObj::is` (kobj.rs, not under src/) tests whether
the object's resource-kind tag matches the given one, ignoring kind-specific
sidecar data. -/
def KObj.is (obj : KObj) (t : ObjType) : Bool :=
  match obj.typ, t with
  | .Pod _, .Pod _ => true
  | .PersistentVolume, .PersistentVolume => true
  | .Node, .Node => true
  | _, _ => false

/-! ## Raw pod records (the k8s_openapi fields read by pods.rs) -/

/-- Object metadata: the fields of `metadata` the sources read. -/
structure ObjectMeta where
  name : Option String
  namespace' : Option String
  deletion_timestamp : Option Int
deriving DecidableEq

/-- ContainerStateTerminated: only `finished_at` is read. -/
structure ContainerStateTerminated where
  finished_at : Option Int
deriving DecidableEq

/-- ContainerState: the sources only test presence of `running`/`waiting`
payloads, so those are `Option Unit`. -/
structure ContainerState where
  running : Option Unit
  terminated : Option ContainerStateTerminated
  waiting : Option Unit
deriving DecidableEq

/-- ContainerStatus: the fields read by pods.rs. -/
structure ContainerStatus where
  name : String
  ready : Bool
  restart_count : Int
  state : Option ContainerState
  last_state : Option ContainerState
deriving DecidableEq

/-- PodStatus: the fields read by pods.rs. -/
structure PodStatus where
  container_statuses : Option (List ContainerStatus)
  phase : Option String
  pod_ip : Option String
  nominated_node_name : Option String
deriving DecidableEq

/-- A readiness gate: only `condition_type` is read. -/
structure PodReadinessGate where
  condition_type : String
deriving DecidableEq

/-- A container spec: only `name` is read. -/
structure Container where
  name : String
deriving DecidableEq

/-- PodSpec: the fields read by pods.rs. -/
structure PodSpec where
  containers : List Container
  node_name : Option String
  readiness_gates : Option (List PodReadinessGate)
deriving DecidableEq

/-- A raw pod record. -/
structure Pod where
  metadata : ObjectMeta
  spec : Option PodSpec
  status : Option PodStatus
deriving DecidableEq

/-! ## pods.rs functions -/

/-- pod_to_kobj (pods.rs): derive the KObj identity of a pod record. -/
def pod_to_kobj (pod : Pod) : KObj :=
  let containers := match pod.spec with
    | some spec => spec.containers.map (fun cont => cont.name)
    | none => []
  { name := pod.metadata.name.getD "<Unknown>"
    namespace' := pod.metadata.namespace'
    typ := ObjType.Pod containers }

/-- has_waiting (pods.rs): check if a pod has a waiting container. -/
def has_waiting (pod : Pod) : Bool :=
  match pod.status.bind (fun stat => stat.container_statuses) with
  | some stats =>
    stats.any fun cs =>
      match cs.state with
      | some state =>
        state.waiting.isSome ||
          -- if all 3 are None, default is waiting
          (state.running.isNone && state.terminated.isNone)
      | none => false
  | none => false

/-- phase_style_color (pods.rs): map a status text to its semantic color; the
if-chain mirrors the source's match arms in order. -/
def phase_style_color (phase : String) : ColorType :=
  if phase = "Running" ∨ phase = "Active" then ColorType.success
  else if phase = "Terminated" ∨ phase = "Terminating" then ColorType.danger
  else if phase = "Pending" ∨ phase = "ContainerCreating" then ColorType.warn
  else if phase = "Succeeded" then ColorType.info
  else if phase = "Failed" then ColorType.danger
  else if phase = "Unknown" then ColorType.danger
  else ColorType.danger

/-- pod_ip (pods.rs). -/
def pod_ip (pod : Pod) : Option CellSpec :=
  pod.status.bind fun status => status.pod_ip.map fun pi => CellSpec.plain pi

/-- pod_node (pods.rs). -/
def pod_node (pod : Pod) : Option CellSpec :=
  pod.spec.bind fun spec => spec.node_name.map fun nn => CellSpec.plain nn

/-- pod_nominated_node (pods.rs). -/
def pod_nominated_node (pod : Pod) : Option CellSpec :=
  pod.status.map fun status =>
    match status.nominated_node_name with
    | some nn => CellSpec.plain nn
    | none => CellSpec.plain "<none>"

/-- ready_counts (pods.rs): the number of ready containers and total
containers as ready/total, accumulated over the container statuses. -/
def ready_counts (pod : Pod) : Option CellSpec :=
  pod.status.map fun stat =>
    let rc : Nat × Nat :=
      match stat.container_statuses with
      | some container_statuses =>
        container_statuses.foldl
          (fun p cs => (p.1 + (if cs.ready then 1 else 0), p.2 + 1)) (0, 0)
      | none => (0, 0)
    CellSpec.plain (toString rc.1 ++ "/" ++ toString rc.2)

/-- pod_readiness_gates (pods.rs). -/
def pod_readiness_gates (pod : Pod) : Option CellSpec :=
  pod.spec.bind fun spec =>
    spec.readiness_gates.map fun readiness_gates =>
      if readiness_gates.isEmpty then CellSpec.plain "<none>"
      else
        CellSpec.plain
          (String.intercalate ", " (readiness_gates.map fun rg => rg.condition_type))

/-- restart_count (pods.rs): sum of the containers' restart counts. -/
def restart_count (pod : Pod) : Option CellSpec :=
  pod.status.bind fun stat =>
    stat.container_statuses.map fun container_statuses =>
      let count := container_statuses.foldl (fun acc cs => acc + cs.restart_count) 0
      CellSpec.plain (toString count)

/-- last_restart (pods.rs): most recent finished_at over the containers' last
terminated states, as a fold with the source's none/compare update. -/
def last_restart (pod : Pod) : Option CellSpec :=
  pod.status.bind fun stat =>
    let lr : Option Int :=
      match stat.container_statuses with
      | some container_statuses =>
        container_statuses.foldl
          (fun last_restart cs =>
            match cs.last_state with
            | some state =>
              match state.terminated with
              | some terminated =>
                match terminated.finished_at with
                | some finished =>
                  match last_restart with
                  | none => some finished
                  | some last =>
                    -- check which is more recent
                    if finished > last then some finished else some last
                | none => last_restart
              | none => last_restart
            | none => last_restart)
          none
      | none => none
    lr.map fun lr' => cellOfTime lr'

/-- pod_status (pods.rs): Terminating if deleted, ContainerCreating if a
container is waiting, otherwise the reported phase (or Unknown), colored by
phase_style_color. -/
def pod_status (pod : Pod) : Option CellSpec :=
  let status :=
    if pod.metadata.deletion_timestamp.isSome then "Terminating"
    else if has_waiting pod then "ContainerCreating"
    else (pod.status.bind fun stat => stat.phase).getD "Unknown"
  let fg := phase_style_color status
  some (CellSpec.with_colors status (some fg) none)

/-- POD_EXTRACTORS (pods.rs): the extractor registry for pods, as an
association list keyed by display name (HashMap insertion order is
irrelevant to lookup). -/
def POD_EXTRACTORS : List (String × (Pod → Option CellSpec)) :=
  [("IP", pod_ip),
   ("Last Restart", last_restart),
   ("Node", pod_node),
   ("Nominated Node", pod_nominated_node),
   ("Readiness Gates", pod_readiness_gates),
   ("Ready", ready_counts),
   ("Restarts", restart_count),
   ("Status", pod_status)]

/-- COL_MAP (pods.rs): base (flag, display name) column descriptors. -/
def POD_COL_MAP : List (String × String) :=
  [("name", "Name"),
   ("ready", "Ready"),
   ("status", "Status"),
   ("restarts", "Restarts"),
   ("age", "Age")]

/-- EXTRA_COL_MAP (pods.rs): extra (flag, display name) column descriptors. -/
def POD_EXTRA_COL_MAP : List (String × String) :=
  [("ip", "IP"),
   ("labels", "Labels"),
   ("lastrestart", "Last Restart"),
   ("namespace", "Namespace"),
   ("node", "Node"),
   ("nominatednode", "Nominated Node"),
   ("readinessgates", "Readiness Gates")]

/-! ## Raw persistent-volume records (the k8s_openapi fields read by volumes.rs) -/

/-- A claim reference: the fields read by volumes.rs. -/
structure ObjectReference where
  namespace' : Option String
  name : Option String
deriving DecidableEq

/-- PersistentVolumeSpec: the fields read by volumes.rs.  `capacity` is a
map from resource name to quantity (the quantity's string form). -/
structure PersistentVolumeSpec where
  capacity : List (String × String)
  access_modes : List String
  persistent_volume_reclaim_policy : Option String
  volume_mode : Option String
  claim_ref : Option ObjectReference
  storage_class_name : Option String
deriving DecidableEq

/-- PersistentVolumeStatus: the fields read by volumes.rs. -/
structure PersistentVolumeStatus where
  phase : Option String
  reason : Option String
deriving DecidableEq

/-- A raw persistent-volume record. -/
structure PersistentVolume where
  metadata : ObjectMeta
  spec : Option PersistentVolumeSpec
  status : Option PersistentVolumeStatus
deriving DecidableEq

/-! ## volumes.rs functions -/

/-- pv_to_kobj (volumes.rs): derive the KObj identity of a volume record. -/
def pv_to_kobj (volume : PersistentVolume) : KObj :=
  { name := volume.metadata.name.getD "<Unknown>"
    namespace' := volume.metadata.namespace'
    typ := ObjType.PersistentVolume }

/-- volume_capacity (volumes.rs): the "storage" entry of the capacity map. -/
def volume_capacity (volume : PersistentVolume) : Option CellSpec :=
  volume.spec.bind fun spec =>
    (spec.capacity.lookup "storage").map fun q => CellSpec.plain q

/-- volume_access_modes (volumes.rs): abbreviate and join the access modes. -/
def volume_access_modes (volume : PersistentVolume) : Option CellSpec :=
  volume.spec.map fun spec =>
    CellSpec.plain
      (String.intercalate ", "
        (spec.access_modes.map fun mode =>
          if mode = "ReadWriteOnce" then "RWO"
          else if mode = "ReadOnlyMany" then "ROX"
          else if mode = "ReadWriteMany" then "RWX"
          else if mode = "ReadWriteOncePod" then "RWOP"
          else "Unknown"))

/-- volume_reclaim_policy (volumes.rs). -/
def volume_reclaim_policy (volume : PersistentVolume) : Option CellSpec :=
  volume.spec.bind fun spec =>
    spec.persistent_volume_reclaim_policy.map fun p => CellSpec.plain p

/-- volume_mode (volumes.rs). -/
def volume_mode (volume : PersistentVolume) : Option CellSpec :=
  volume.spec.bind fun spec =>
    spec.volume_mode.map fun mode => CellSpec.plain mode

/-- volume_status (volumes.rs). -/
def volume_status (volume : PersistentVolume) : Option CellSpec :=
  volume.status.bind fun stat =>
    stat.phase.map fun p => CellSpec.plain p

/-- volume_claim (volumes.rs): "namespace/name" of the claim reference, with
empty strings for absent parts. -/
def volume_claim (volume : PersistentVolume) : Option CellSpec :=
  volume.spec.map fun spec =>
    match spec.claim_ref with
    | some claim_ref =>
      CellSpec.plain ((claim_ref.namespace'.getD "") ++ "/" ++ (claim_ref.name.getD ""))
    | none => CellSpec.plain ""

/-- volume_storage_class (volumes.rs). -/
def volume_storage_class (volume : PersistentVolume) : Option CellSpec :=
  volume.spec.bind fun spec =>
    spec.storage_class_name.map fun sc => CellSpec.plain sc

/-- volume_reason (volumes.rs). -/
def volume_reason (volume : PersistentVolume) : Option CellSpec :=
  volume.status.map fun stat =>
    match stat.reason with
    | some r => CellSpec.plain r
    | none => CellSpec.plain ""

/-- PV_EXTRACTORS (volumes.rs): the extractor registry for persistent
volumes, as an association list keyed by display name. -/
def PV_EXTRACTORS : List (String × (PersistentVolume → Option CellSpec)) :=
  [("Capacity", volume_capacity),
   ("Access Modes", volume_access_modes),
   ("Reclaim Policy", volume_reclaim_policy),
   ("Status", volume_status),
   ("Claim", volume_claim),
   ("Storage Class", volume_storage_class),
   ("Reason", volume_reason),
   ("Volume Mode", volume_mode)]

/-- COL_MAP (volumes.rs): base (flag, display name) column descriptors. -/
def PV_COL_MAP : List (String × String) :=
  [("name", "Name"),
   ("age", "Age"),
   ("capacity", "Capacity"),
   ("accessmodes", "Access Modes"),
   ("replacepolicy", "Reclaim Policy"),
   ("status", "Status"),
   ("cliam", "Claim"),
   ("storageclass", "Storage Class"),
   ("reason", "Reason")]

/-- EXTRA_COL_MAP (volumes.rs). -/
def PV_EXTRA_COL_MAP : List (String × String) :=
  [("labels", "Labels"), ("volumemode", "Volume Mode")]

/-! ## Selection state and the pods field-selector logic -/

/-- ObjectSelection (env.rs): the current navigation selection. -/
inductive ObjectSelection where
  | noSelection
  | single (obj : KObj)
  | many (objs : List KObj)
deriving DecidableEq

/-- Field-selector choice of the Pods command closure (pods.rs): an explicit
--node flag wins; otherwise a currently selected Node object supplies the
node name; otherwise no field selector. -/
def pods_field_selector (node_flag : Option String) (sel : ObjectSelection) :
    Option String :=
  match node_flag with
  | some nodeval => some ("spec.nodeName=" ++ nodeval)
  | none =>
    match sel with
    | .single obj =>
      if obj.is ObjType.Node then some ("spec.nodeName=" ++ obj.name) else none
    | _ => none

/-! ## The generic list pipeline, modelled from the spec

`run_list_command` (src/command/mod.rs) is not among the provided source
files; the definitions in this section are modelled from spec sections 4.3
(List Pipeline) and 4.2 (Extractor Registry). -/

/-- Modelled from the spec: the stable placeholder cell a row shows for a
column with no value ("an empty cell, never an error"). -/
def placeholderCell : CellSpec := CellSpec.plain ""

/-- Modelled from the spec: per-row cell projection of `run_list_command`
(spec 4.3 step 2).  The base column Name comes from the KObj; other columns
go through the extractor registry; a missing extractor or a `None` result
degrades to the placeholder cell.  (The Age base column is elided: no claim
depends on its rendering.) -/
def projectCell {T : Type} (extractors : List (String × (T → Option CellSpec)))
    (to_kobj : T → KObj) (col : String) (record : T) : CellSpec :=
  if col = "Name" then CellSpec.plain (to_kobj record).name
  else
    match extractors.lookup col with
    | some ex => (ex record).getD placeholderCell
    | none => placeholderCell

/-- Modelled from the spec: project one raw record to its (KObj, row) pair
over the effective columns (spec 4.3 step 2). -/
def projectRow {T : Type} (extractors : List (String × (T → Option CellSpec)))
    (to_kobj : T → KObj) (cols : List String) (record : T) :
    KObj × List CellSpec :=
  (to_kobj record, cols.map fun col => projectCell extractors to_kobj col record)

/-- Check whether the first character list is an initial segment of the
second. -/
def startsWith : List Char → List Char → Bool
  | [], _ => true
  | _ :: _, [] => false
  | p :: ps, c :: cs => p = c && startsWith ps cs

/-- Check whether the first character list occurs contiguously inside the
second. -/
def substringOf (pat : List Char) : List Char → Bool
  | [] => startsWith pat []
  | c :: cs => startsWith pat (c :: cs) || substringOf pat cs

/-- Modelled from the spec: does a row's Name match the filter pattern
(case-sensitive substring match)? -/
def nameMatches (p : String) (row : KObj × List CellSpec) : Bool :=
  substringOf p.toList row.1.name.toList

/-- Modelled from the spec: the name filter (spec 4.3 step 3) — keep only
rows whose Name matches the pattern, applied strictly before sort. -/
def filterStep (pat : Option String) (rows : List (KObj × List CellSpec)) :
    List (KObj × List CellSpec) :=
  match pat with
  | some p => rows.filter fun row => nameMatches p row
  | none => rows

/-- Modelled from the spec: stable insertion of a row into a name-sorted
list — the row goes after every row with a strictly smaller or equal name
that is already present. -/
def insertRow (r : KObj × List CellSpec) :
    List (KObj × List CellSpec) → List (KObj × List CellSpec)
  | [] => [r]
  | x :: xs =>
    if x.1.name < r.1.name then x :: insertRow r xs else r :: x :: xs

/-- Modelled from the spec: stable sort of the rows by ascending Name
(spec 4.3 step 4, post-extraction compare on the Name column; ties keep
fetch order). -/
def sortRowsByName : List (KObj × List CellSpec) → List (KObj × List CellSpec)
  | [] => []
  | r :: rs => insertRow r (sortRowsByName rs)

/-- Modelled from the spec: the sort step — sort by Name when requested,
otherwise leave fetch order unchanged. -/
def sortStep (sortByName : Bool) (rows : List (KObj × List CellSpec)) :
    List (KObj × List CellSpec) :=
  if sortByName then sortRowsByName rows else rows

/-- Modelled from the spec: the reverse step (spec 4.3 step 5) — reverse the
final ordered sequence after sorting. -/
def reverseStep (rev : Bool) (rows : List (KObj × List CellSpec)) :
    List (KObj × List CellSpec) :=
  if rev then rows.reverse else rows

/-- Modelled from the spec: the generic list pipeline of `run_list_command`
(spec 4.3) — a fetch error is propagated unmodified; otherwise project every
record, filter by name, sort, reverse, and emit the ordered rows. -/
def run_list_pipeline {T : Type}
    (fetch : Except String (List T))
    (extractors : List (String × (T → Option CellSpec)))
    (to_kobj : T → KObj) (cols : List String)
    (pat : Option String) (sortByName rev : Bool) :
    Except String (List (KObj × List CellSpec)) :=
  match fetch with
  | .error e => .error e
  | .ok recs =>
    .ok (reverseStep rev
      (sortStep sortByName
        (filterStep pat (recs.map fun r => projectRow extractors to_kobj cols r))))

/-- Modelled from the spec: the environment adopts the emitted KObjs as the
new Many selection only when the pipeline succeeds; a failed fetch leaves
the selection untouched. -/
def adopt_selection (sel : ObjectSelection)
    (out : Except String (List (KObj × List CellSpec))) : ObjectSelection :=
  match out with
  | .ok rows => ObjectSelection.many (rows.map Prod.fst)
  | .error _ => sel

/-! ## Range-spec selection, modelled from the spec

`Env::apply_to_selection` (src/env.rs) is not among the provided source
files; this section is modelled from spec sections 4.5 and 7 and the range
syntax of section 3 ("2-4,7", 1-based, inclusive). -/

/-- Error taxonomy of spec section 7 (the variants the claims need). -/
inductive ClickError where
  | configError (msg : String)
  | commandError (msg : String)
deriving DecidableEq

/-- Split a character list at every occurrence of the separator. -/
def splitOnChar (c : Char) : List Char → List (List Char)
  | [] => [[]]
  | x :: xs =>
    let rest := splitOnChar c xs
    if x = c then [] :: rest
    else
      match rest with
      | [] => [[x]]
      | r :: rs => (x :: r) :: rs

/-- Parse a non-empty all-digit token as a number; any other token is
rejected. -/
def digitsToNat? (l : List Char) : Option Nat :=
  if l.isEmpty then none
  else
    l.foldl
      (fun acc ch =>
        acc.bind fun n => if ch.isDigit then some (n * 10 + (ch.toNat - 48)) else none)
      (some 0)

/-- Modelled from the spec: one comma-separated item of a range spec — a
single 1-based index "7" or an inclusive range "2-4"; out-of-bounds indices
(0 or beyond the selection size k) and non-numeric tokens are rejected. -/
def parseRangeItem (k : Nat) (item : List Char) : Option (List Nat) :=
  match splitOnChar '-' item with
  | [a] =>
    (digitsToNat? a).bind fun n =>
      if 1 ≤ n ∧ n ≤ k then some [n] else none
  | [a, b] =>
    (digitsToNat? a).bind fun n =>
      (digitsToNat? b).bind fun m =>
        if 1 ≤ n ∧ n ≤ m ∧ m ≤ k then some (List.range' n (m - n + 1)) else none
  | _ => none

/-- Modelled from the spec: parse a full range spec ("2-4,7") against a
selection of size k into the selected 1-based indices, in the order written;
any malformed item rejects the whole spec. -/
def parseRange (k : Nat) (spec : String) : Option (List Nat) :=
  ((splitOnChar ',' spec.toList).mapM (parseRangeItem k)).map List.flatten

/-- Modelled from the spec: `Env::apply_to_selection` — a Single selection
ignores range syntax and applies the operation once; a Many selection with
no range spec applies it to every member in order; a malformed range spec is
a ConfigError reported before any operation runs; a valid range spec applies
the operation to exactly the selected members in order, recording each
member's own outcome so that one failure does not prevent the remaining
members (failures are accumulated in the returned report). -/
def apply_to_selection (sel : ObjectSelection) (range : Option String)
    (op : KObj → Except ClickError Unit) :
    Except ClickError (List (KObj × Except ClickError Unit)) :=
  match sel with
  | .noSelection => .error (ClickError.commandError "no object selected")
  | .single obj => .ok [(obj, op obj)]
  | .many objs =>
    match range with
    | none => .ok (objs.map fun o => (o, op o))
    | some spec =>
      match parseRange objs.length spec with
      | none => .error (ClickError.configError ("invalid range: " ++ spec))
      | some idxs =>
        .ok ((idxs.filterMap fun i => objs.get? (i - 1)).map fun o => (o, op o))

/-! ## Derived definitions used by the claims -/

/-- Display-name keys of the pod extractor registry. -/
def podExtractorKeys : List String := POD_EXTRACTORS.map Prod.fst

/-- Display-name keys of the persistent-volume extractor registry. -/
def pvExtractorKeys : List String := PV_EXTRACTORS.map Prod.fst

/-- The column-descriptor invariant exactly as the spec states it for one
resource kind: flags lowercase, flags unique across base+extra, every extra
column's display name a registry key, and the keys distinct (the 1:1
correspondence with the extra-column flags). -/
def c1StatedClaim (colMap extraMap : List (String × String))
    (keys : List String) : Prop :=
  ((colMap ++ extraMap).all fun p => p.1.toList.all Char.isLower) = true ∧
  ((colMap ++ extraMap).map Prod.fst).Nodup ∧
  (∀ p ∈ extraMap, p.2 ∈ keys) ∧
  keys.Nodup

/-- The fold step of last_restart's loop body, named so the fold can be
reasoned about; its body is exactly the loop body of `last_restart`. -/
def lrStep (last_restart : Option Int) (cs : ContainerStatus) : Option Int :=
  match cs.last_state with
  | some state =>
    match state.terminated with
    | some terminated =>
      match terminated.finished_at with
      | some finished =>
        match last_restart with
        | none => some finished
        | some last => if finished > last then some finished else some last
      | none => last_restart
    | none => last_restart
  | none => last_restart

/-- The timestamp part of last_restart, before rendering as a cell. -/
def last_restart_time (stat : PodStatus) : Option Int :=
  match stat.container_statuses with
  | some container_statuses => container_statuses.foldl lrStep none
  | none => none

/-- The finished_at timestamp of a container status's last terminated state,
when all links of the chain are present. -/
def extractFin (cs : ContainerStatus) : Option Int :=
  (cs.last_state.bind fun state => state.terminated).bind fun t => t.finished_at

/-- Every finished_at timestamp of a last terminated container state, in
container order.  last_restart is claimed to return the maximum of these. -/
def lastTerminatedFinishes (css : List ContainerStatus) : List Int :=
  css.filterMap extractFin

/-- Running maximum of a list of timestamps starting from an optional seed. -/
def optMax (acc : Option Int) (l : List Int) : Option Int :=
  l.foldl
    (fun a t =>
      some (match a with
            | none => t
            | some x => max x t))
    acc

/-- A container state that counts as waiting, in the claim's words: a
waiting payload is present, or running, terminated and waiting are all
absent. -/
def waitingStateSpec (st : ContainerState) : Prop :=
  st.waiting.isSome = true ∨
    (st.running = none ∧ st.terminated = none ∧ st.waiting = none)

/-- A pod with some container status in a waiting state, in the claim's
words. -/
def has_waitingSpec (p : Pod) : Prop :=
  ∃ stat, p.status = some stat ∧
    ∃ css, stat.container_statuses = some css ∧
      ∃ cs ∈ css, ∃ st, cs.state = some st ∧ waitingStateSpec st

/-- Status texts that phase_style_color matches by a non-wildcard arm. -/
def recognizedPhases : List String :=
  ["Running", "Active", "Terminated", "Terminating", "Pending",
   "ContainerCreating", "Succeeded", "Failed", "Unknown"]

/-! ## Concrete records used by the witnesses and counterexamples -/

/-- Metadata with no fields set. -/
def emptyMeta : ObjectMeta :=
  { name := none, namespace' := none, deletion_timestamp := none }

/-- A pod whose metadata carries an explicitly empty name. -/
def emptyNamePod : Pod :=
  { metadata := { name := some "", namespace' := none, deletion_timestamp := none }
    spec := none
    status := none }

/-- A pod whose metadata carries no name at all. -/
def noNamePod : Pod :=
  { metadata := emptyMeta, spec := none, status := none }

/-- A volume record whose metadata carries no name at all. -/
def noNamePV : PersistentVolume :=
  { metadata := emptyMeta, spec := none, status := none }

/-- A pod marked for deletion. -/
def termPod : Pod :=
  { metadata := { name := some "t", namespace' := none, deletion_timestamp := some 7 }
    spec := none
    status := none }

/-- A container status whose last state terminated at the given time. -/
def finishedCS (t : Int) : ContainerStatus :=
  { name := "c"
    ready := true
    restart_count := 1
    state := none
    last_state := some { running := none
                         terminated := some { finished_at := some t }
                         waiting := none } }

/-- A pod with two containers whose last terminations finished at 5 and 9. -/
def lrPod : Pod :=
  { metadata := { name := some "lr", namespace' := none, deletion_timestamp := none }
    spec := none
    status := some { container_statuses := some [finishedCS 5, finishedCS 9]
                     phase := some "Running"
                     pod_ip := none
                     nominated_node_name := none } }

/-- A selected Node object. -/
def nodeObj : KObj := { name := "n1", namespace' := none, typ := ObjType.Node }

/-- Three many-selected pod objects named a, b, c. -/
def kobjA : KObj := { name := "a", namespace' := none, typ := ObjType.Pod [] }

/-- Second member of the sample Many selection. -/
def kobjB : KObj := { name := "b", namespace' := none, typ := ObjType.Pod [] }

/-- Third member of the sample Many selection. -/
def kobjC : KObj := { name := "c", namespace' := none, typ := ObjType.Pod [] }

/-- A sample operation that fails exactly on the object named b. -/
def opFailB (o : KObj) : Except ClickError Unit :=
  if o.name = "b" then Except.error (ClickError.commandError "boom") else Except.ok ()

/-- A pod named pod-a with no spec or status. -/
def podA : Pod :=
  { metadata := { name := some "pod-a", namespace' := none, deletion_timestamp := none }
    spec := none
    status := none }

/-- A pod named xyz with no spec or status. -/
def podX : Pod :=
  { metadata := { name := some "xyz", namespace' := none, deletion_timestamp := none }
    spec := none
    status := none }

/-! ## Claim theorems -/

/-- C1, counterexample: the invariant as stated fails on the pod column
descriptors — the extra column with flag "labels" (display name "Labels")
has no key in the pod extractor registry, so extra-column display names do
not correspond 1:1 to registry keys. -/
theorem claim_c1_counterexample :
    ("labels", "Labels") ∈ POD_EXTRA_COL_MAP ∧
    "Labels" ∉ podExtractorKeys ∧
    ¬ c1StatedClaim POD_COL_MAP POD_EXTRA_COL_MAP podExtractorKeys := by
  refine ⟨by decide, by decide, ?_⟩
  intro h
  exact absurd (h.2.2.1 ("labels", "Labels") (by decide)) (by decide)

/-- C1, amended: for both resource kinds all flags are lowercase and unique
across the combined base+extra set, the registry keys are distinct, and the
keys correspond 1:1 to the column display names other than Name, Age,
Labels and (for pods) Namespace — those four are derived directly from the
KObj/metadata rather than via the registry. -/
theorem claim_c1_amended :
    (((POD_COL_MAP ++ POD_EXTRA_COL_MAP).all fun p => p.1.toList.all Char.isLower) = true) ∧
    ((POD_COL_MAP ++ POD_EXTRA_COL_MAP).map Prod.fst).Nodup ∧
    (((PV_COL_MAP ++ PV_EXTRA_COL_MAP).all fun p => p.1.toList.all Char.isLower) = true) ∧
    ((PV_COL_MAP ++ PV_EXTRA_COL_MAP).map Prod.fst).Nodup ∧
    podExtractorKeys.Nodup ∧
    pvExtractorKeys.Nodup ∧
    podExtractorKeys.Perm
      (((POD_COL_MAP.map Prod.snd).filter fun d => !(d == "Name" || d == "Age")) ++
        ((POD_EXTRA_COL_MAP.map Prod.snd).filter fun d => !(d == "Labels" || d == "Namespace"))) ∧
    pvExtractorKeys.Perm
      (((PV_COL_MAP.map Prod.snd).filter fun d => !(d == "Name" || d == "Age")) ++
        ((PV_EXTRA_COL_MAP.map Prod.snd).filter fun d => !(d == "Labels"))) := by
  decide

/-- C3, counterexample: a record whose metadata name is present but empty is
mapped to a KObj with an empty name, so the mapped name is not non-empty for
every record (the sentinel applies only when the name is absent). -/
theorem claim_c3_counterexample :
    emptyNamePod.metadata.name = some "" ∧ (pod_to_kobj emptyNamePod).name = "" := by
  exact ⟨rfl, rfl⟩

/-- C3, amended: the record-to-KObj mappers return the metadata name when one
is present and exactly the sentinel "<Unknown>" when it is absent; the KObj
name is therefore non-empty unless the record itself carries an explicitly
empty name. -/
theorem claim_c3_amended :
    ∀ (p : Pod) (v : PersistentVolume),
    ((pod_to_kobj p).name = p.metadata.name.getD "<Unknown>") ∧
    (p.metadata.name = none → (pod_to_kobj p).name = "<Unknown>") ∧
    (∀ s, p.metadata.name = some s → s ≠ "" → (pod_to_kobj p).name ≠ "") ∧
    ((pv_to_kobj v).name = v.metadata.name.getD "<Unknown>") ∧
    (v.metadata.name = none → (pv_to_kobj v).name = "<Unknown>") ∧
    (∀ s, v.metadata.name = some s → s ≠ "" → (pv_to_kobj v).name ≠ "") := by
  intro p v
  refine ⟨rfl, ?_, ?_, rfl, ?_, ?_⟩
  · intro h; simp [pod_to_kobj, h]
  · intro s h hs; simp [pod_to_kobj, h, hs]
  · intro h; simp [pv_to_kobj, h]
  · intro s h hs; simp [pv_to_kobj, h, hs]

/-- C3, witness of the amended theorem: the pod and volume records with no
metadata name map to KObjs named exactly "<Unknown>", and a pod named "x"
maps to a non-empty name. -/
theorem claim_c3_witness :
    (pod_to_kobj noNamePod).name = "<Unknown>" ∧
    (pv_to_kobj noNamePV).name = "<Unknown>" ∧
    (pod_to_kobj podA).name ≠ "" := by
  refine ⟨?_, ?_, ?_⟩
  · exact (claim_c3_amended noNamePod noNamePV).2.1 rfl
  · exact (claim_c3_amended noNamePod noNamePV).2.2.2.2.1 rfl
  · exact (claim_c3_amended podA noNamePV).2.2.1 "pod-a" rfl (by decide)

/-- C10: the pods field selector uses spec.nodeName=flag whenever the --node
flag is given (overriding any selection), uses the selected node's name when
no flag is given and the current selection is a Single Node object, and is
unset otherwise. -/
theorem claim_c10 :
    ∀ (v : String) (sel : ObjectSelection) (obj : KObj) (objs : List KObj),
    pods_field_selector (some v) sel = some ("spec.nodeName=" ++ v) ∧
    (obj.is ObjType.Node = true →
      pods_field_selector none (ObjectSelection.single obj)
        = some ("spec.nodeName=" ++ obj.name)) ∧
    (obj.is ObjType.Node = false →
      pods_field_selector none (ObjectSelection.single obj) = none) ∧
    pods_field_selector none (ObjectSelection.many objs) = none ∧
    pods_field_selector none ObjectSelection.noSelection = none := by
  intro v sel obj objs
  refine ⟨rfl, ?_, ?_, rfl, rfl⟩
  · intro h; simp [pods_field_selector, h]
  · intro h; simp [pods_field_selector, h]

/-- C10, witness: with no flag and the node n1 selected, the fetch filters on
spec.nodeName=n1; with the flag set to n2 it filters on spec.nodeName=n2 even
though n1 is selected. -/
theorem claim_c10_witness :
    pods_field_selector none (ObjectSelection.single nodeObj) = some "spec.nodeName=n1" ∧
    pods_field_selector (some "n2") (ObjectSelection.single nodeObj) = some "spec.nodeName=n2" := by
  constructor
  · exact (claim_c10 "n2" ObjectSelection.noSelection nodeObj []).2.1 rfl
  · exact (claim_c10 "n2" (ObjectSelection.single nodeObj) nodeObj []).1

/-- C5: a transport error from the fetch is the pipeline's result,
propagated unmodified; no rows are emitted and the current selection is left
untouched. -/
theorem claim_c5 :
    ∀ (T : Type) (extractors : List (String × (T → Option CellSpec)))
      (to_kobj : T → KObj) (cols : List String) (pat : Option String)
      (sortB rev : Bool) (e : String) (sel : ObjectSelection),
    run_list_pipeline (Except.error e : Except String (List T))
        extractors to_kobj cols pat sortB rev = Except.error e ∧
    adopt_selection sel
        (run_list_pipeline (Except.error e : Except String (List T))
          extractors to_kobj cols pat sortB rev) = sel := by
  intro T extractors to_kobj cols pat sortB rev e sel
  exact ⟨rfl, rfl⟩

/-- C2: row projection is total — every row has one cell per effective
column, a column with no extractor or an extractor returning None yields the
stable placeholder cell (never an aborted row), an extractor returning a
cell yields that cell, and the cited extractors last_restart and
volume_capacity always return Some or None. -/
theorem claim_c2 :
    ∀ (T : Type) (extractors : List (String × (T → Option CellSpec)))
      (to_kobj : T → KObj) (cols : List String) (record : T) (col : String),
    (projectRow extractors to_kobj cols record).2.length = cols.length ∧
    (col ≠ "Name" → extractors.lookup col = none →
      projectCell extractors to_kobj col record = placeholderCell) ∧
    (∀ f, col ≠ "Name" → extractors.lookup col = some f → f record = none →
      projectCell extractors to_kobj col record = placeholderCell) ∧
    (∀ f c, col ≠ "Name" → extractors.lookup col = some f → f record = some c →
      projectCell extractors to_kobj col record = c) ∧
    (∀ (p : Pod), last_restart p = none ∨ ∃ cell, last_restart p = some cell) ∧
    (∀ (v : PersistentVolume),
      volume_capacity v = none ∨ ∃ cell, volume_capacity v = some cell) := by
  intro T extractors to_kobj cols record col
  refine ⟨by simp [projectRow], ?_, ?_, ?_, ?_, ?_⟩
  · intro hcol hl; simp [projectCell, hcol, hl]
  · intro f hcol hl hf; simp [projectCell, hcol, hl, hf]
  · intro f c hcol hl hf; simp [projectCell, hcol, hl, hf]
  · intro p
    rcases h : last_restart p with _ | cell
    · exact Or.inl rfl
    · exact Or.inr ⟨cell, rfl⟩
  · intro v
    rcases h : volume_capacity v with _ | cell
    · exact Or.inl rfl
    · exact Or.inr ⟨cell, rfl⟩

/-- C2, witness: on a pod with no status the IP extractor has no value and
the projected IP cell is exactly the placeholder; the projected row has one
cell per column. -/
theorem claim_c2_witness :
    projectCell POD_EXTRACTORS pod_to_kobj "IP" noNamePod = placeholderCell ∧
    (projectRow POD_EXTRACTORS pod_to_kobj ["Name", "IP"] noNamePod).2.length = 2 := by
  constructor
  · exact (claim_c2 Pod POD_EXTRACTORS pod_to_kobj ["Name", "IP"] noNamePod "IP").2.2.1
      pod_ip (by decide) rfl rfl
  · exact (claim_c2 Pod POD_EXTRACTORS pod_to_kobj ["Name", "IP"] noNamePod "IP").1

/-- C6: filtering keeps exactly the rows whose Name matches the pattern
(their count), every kept row matches, the filter is idempotent, the Name
cell of a projected row carries the KObj name the filter tests, and the
pipeline applies the filter strictly before sort and reverse. -/
theorem claim_c6 :
    ∀ (T : Type) (extractors : List (String × (T → Option CellSpec)))
      (to_kobj : T → KObj) (cols : List String) (recs : List T)
      (p : String) (sortB rev : Bool),
    (filterStep (some p) (recs.map (projectRow extractors to_kobj cols))).length
      = (recs.map (projectRow extractors to_kobj cols)).countP (fun row => nameMatches p row) ∧
    (filterStep (some p) (recs.map (projectRow extractors to_kobj cols))).length
      ≤ recs.length ∧
    (∀ row ∈ filterStep (some p) (recs.map (projectRow extractors to_kobj cols)),
      nameMatches p row = true) ∧
    filterStep (some p) (filterStep (some p) (recs.map (projectRow extractors to_kobj cols)))
      = filterStep (some p) (recs.map (projectRow extractors to_kobj cols)) ∧
    (∀ (record : T), "Name" ∈ cols →
      CellSpec.plain (to_kobj record).name
        ∈ (projectRow extractors to_kobj cols record).2) ∧
    run_list_pipeline (Except.ok recs) extractors to_kobj cols (some p) sortB rev
      = Except.ok (reverseStep rev (sortStep sortB
          (filterStep (some p) (recs.map fun r => projectRow extractors to_kobj cols r)))) := by
  intro T extractors to_kobj cols recs p sortB rev
  refine ⟨?_, ?_, ?_, ?_, ?_, rfl⟩
  · simp [filterStep, List.countP_eq_length_filter]
  · calc (filterStep (some p) (recs.map (projectRow extractors to_kobj cols))).length
        ≤ (recs.map (projectRow extractors to_kobj cols)).length :=
          List.length_filter_le _ _
      _ = recs.length := List.length_map _ _
  · intro row hrow
    exact (List.mem_filter.mp hrow).2
  · simp [filterStep, List.filter_filter]
  · intro record hname
    exact List.mem_map.mpr ⟨"Name", hname, by simp [projectCell]⟩

/-- C6, witness: of the two pods pod-a and xyz, the pattern "pod" keeps
exactly one row, the kept row is pod-a's and it matches, and the Name cell
of pod-a's row is its KObj name. -/
theorem claim_c6_witness :
    (filterStep (some "pod") ([podA, podX].map (projectRow POD_EXTRACTORS pod_to_kobj ["Name"]))).length = 1 ∧
    projectRow POD_EXTRACTORS pod_to_kobj ["Name"] podA
      ∈ filterStep (some "pod") ([podA, podX].map (projectRow POD_EXTRACTORS pod_to_kobj ["Name"])) ∧
    nameMatches "pod" (projectRow POD_EXTRACTORS pod_to_kobj ["Name"] podA) = true ∧
    CellSpec.plain (pod_to_kobj podA).name
      ∈ (projectRow POD_EXTRACTORS pod_to_kobj ["Name"] podA).2 := by
  refine ⟨?_, ?_, ?_, ?_⟩
  · exact (claim_c6 Pod POD_EXTRACTORS pod_to_kobj ["Name"] [podA, podX] "pod" false false).1.trans
      (by decide)
  · decide
  · exact (claim_c6 Pod POD_EXTRACTORS pod_to_kobj ["Name"] [podA, podX] "pod" false false).2.2.1
      (projectRow POD_EXTRACTORS pod_to_kobj ["Name"] podA) (by decide)
  · exact (claim_c6 Pod POD_EXTRACTORS pod_to_kobj ["Name"] [podA, podX] "pod" false false).2.2.2.2.1
      podA (by decide)

/-- Membership in an insertion is membership in the inserted row or the
list. -/
theorem mem_insertRow (r x : KObj × List CellSpec) (l : List (KObj × List CellSpec)) :
    x ∈ insertRow r l ↔ x = r ∨ x ∈ l := by
  induction l with
  | nil => simp [insertRow]
  | cons y ys ih =>
    simp only [insertRow]
    split
    · simp only [List.mem_cons, ih]
      tauto
    · simp only [List.mem_cons]

/-- Inserting into a name-sorted list keeps it name-sorted. -/
theorem sorted_insertRow (r : KObj × List CellSpec) (l : List (KObj × List CellSpec))
    (h : l.Sorted (fun a b => a.1.name ≤ b.1.name)) :
    (insertRow r l).Sorted (fun a b => a.1.name ≤ b.1.name) := by
  induction l with
  | nil => simp [insertRow]
  | cons y ys ih =>
    rw [List.sorted_cons] at h
    simp only [insertRow]
    split
    · rename_i hlt
      rw [List.sorted_cons]
      constructor
      · intro b hb
        rcases (mem_insertRow r b ys).mp hb with rfl | hb
        · exact le_of_lt hlt
        · exact h.1 b hb
      · exact ih h.2
    · rename_i hnlt
      rw [List.sorted_cons]
      constructor
      · intro b hb
        rcases List.mem_cons.mp hb with rfl | hb
        · exact not_lt.mp hnlt
        · exact le_trans (not_lt.mp hnlt) (h.1 b hb)
      · exact List.sorted_cons.mpr h

/-- The insertion sort by name produces a name-sorted list. -/
theorem sorted_sortRowsByName (l : List (KObj × List CellSpec)) :
    (sortRowsByName l).Sorted (fun a b => a.1.name ≤ b.1.name) := by
  induction l with
  | nil => simp [sortRowsByName]
  | cons r rs ih => exact sorted_insertRow r (sortRowsByName rs) ih

/-- Restricting an insertion to the rows of one fixed name puts the inserted
row (when it has that name) in front and leaves the rest untouched. -/
theorem filter_insertRow (r : KObj × List CellSpec) (l : List (KObj × List CellSpec))
    (k : String) :
    (insertRow r l).filter (fun x => x.1.name == k)
      = if r.1.name == k then r :: l.filter (fun x => x.1.name == k)
        else l.filter (fun x => x.1.name == k) := by
  induction l with
  | nil =>
    by_cases hr : r.1.name = k <;> simp [insertRow, hr]
  | cons y ys ih =>
    simp only [insertRow]
    split
    · rename_i hlt
      by_cases hr : r.1.name = k
      · have hy : y.1.name ≠ k := by
          intro hEq
          rw [hEq, ← hr] at hlt
          exact lt_irrefl _ hlt
        simp [List.filter_cons, hy, hr, ih]
      · simp [List.filter_cons, hr, ih]
    · by_cases hr : r.1.name = k <;> simp [List.filter_cons, hr]

/-- Stability of the name sort: the subsequence of rows carrying any one
fixed name is exactly the fetch-order subsequence. -/
theorem sortRowsByName_stable (l : List (KObj × List CellSpec)) (k : String) :
    (sortRowsByName l).filter (fun x => x.1.name == k)
      = l.filter (fun x => x.1.name == k) := by
  induction l with
  | nil => rfl
  | cons r rs ih =>
    simp only [sortRowsByName]
    rw [filter_insertRow, List.filter_cons]
    by_cases hr : r.1.name = k <;> simp [hr, ih]

/-- C7: with sort-by-name on, the reversed pipeline output is exactly the
reverse of the ascending output (reverse is applied to the whole sorted
sequence, so tied keys invert too); the ascending output is name-sorted and
stable — rows with equal names keep fetch order. -/
theorem claim_c7 :
    ∀ (T : Type) (extractors : List (String × (T → Option CellSpec)))
      (to_kobj : T → KObj) (cols : List String) (recs : List T) (pat : Option String),
    run_list_pipeline (Except.ok recs) extractors to_kobj cols pat true true
      = Except.ok ((sortRowsByName (filterStep pat
          (recs.map fun r => projectRow extractors to_kobj cols r))).reverse) ∧
    run_list_pipeline (Except.ok recs) extractors to_kobj cols pat true false
      = Except.ok (sortRowsByName (filterStep pat
          (recs.map fun r => projectRow extractors to_kobj cols r))) ∧
    (sortRowsByName (filterStep pat
        (recs.map fun r => projectRow extractors to_kobj cols r))).Sorted
      (fun a b => a.1.name ≤ b.1.name) ∧
    (∀ k, (sortRowsByName (filterStep pat
        (recs.map fun r => projectRow extractors to_kobj cols r))).filter
          (fun x => x.1.name == k)
      = (filterStep pat (recs.map fun r => projectRow extractors to_kobj cols r)).filter
          (fun x => x.1.name == k)) := by
  intro T extractors to_kobj cols recs pat
  exact ⟨rfl, rfl, sorted_sortRowsByName _, fun k => sortRowsByName_stable _ k⟩

/-- C4: a malformed range spec (out-of-bounds index or non-numeric token) is
rejected with a ConfigError before the operation runs on any member — the
result does not depend on the operation at all; a valid range spec attempts
the operation on exactly the selected members in order, recording each
member's own outcome, so one member's failure does not prevent the remaining
members. -/
theorem claim_c4 :
    ∀ (objs : List KObj) (spec : String) (op op' : KObj → Except ClickError Unit),
    (parseRange objs.length spec = none →
      apply_to_selection (ObjectSelection.many objs) (some spec) op
        = Except.error (ClickError.configError ("invalid range: " ++ spec)) ∧
      apply_to_selection (ObjectSelection.many objs) (some spec) op
        = apply_to_selection (ObjectSelection.many objs) (some spec) op') ∧
    (∀ idxs, parseRange objs.length spec = some idxs →
      ∃ report,
        apply_to_selection (ObjectSelection.many objs) (some spec) op
          = Except.ok report ∧
        report.map Prod.fst = idxs.filterMap (fun i => objs.get? (i - 1)) ∧
        ∀ pr ∈ report, pr.2 = op pr.1) := by
  intro objs spec op op'
  constructor
  · intro h
    constructor <;> simp [apply_to_selection, h]
  · intro idxs h
    refine ⟨(idxs.filterMap fun i => objs.get? (i - 1)).map (fun o => (o, op o)),
      ?_, ?_, ?_⟩
    · simp [apply_to_selection, h]
    · rw [List.map_map,
        show (Prod.fst ∘ fun o => (o, op o)) = id from rfl, List.map_id]
    · intro pr hpr
      rcases List.mem_map.mp hpr with ⟨o, _, rfl⟩
      rfl

/-- C4, witness: on the Many selection [a, b, c], range spec "2-3" attempts
exactly b then c even though the operation fails on b; range spec "0" is a
ConfigError; and on the out-of-bounds spec "4" the result is the same for a
failing and for a succeeding operation, so no operation ran. -/
theorem claim_c4_witness :
    (∃ report,
      apply_to_selection (ObjectSelection.many [kobjA, kobjB, kobjC]) (some "2-3") opFailB
        = Except.ok report ∧
      report.map Prod.fst = [kobjB, kobjC] ∧
      ∀ pr ∈ report, pr.2 = opFailB pr.1) ∧
    apply_to_selection (ObjectSelection.many [kobjA, kobjB, kobjC]) (some "0") opFailB
      = Except.error (ClickError.configError "invalid range: 0") ∧
    apply_to_selection (ObjectSelection.many [kobjA, kobjB, kobjC]) (some "4") opFailB
      = apply_to_selection (ObjectSelection.many [kobjA, kobjB, kobjC]) (some "4")
          (fun _ => Except.ok ()) := by
  refine ⟨?_, ?_, ?_⟩
  · obtain ⟨report, h1, h2, h3⟩ :=
      (claim_c4 [kobjA, kobjB, kobjC] "2-3" opFailB opFailB).2 [2, 3] (by decide)
    exact ⟨report, h1, h2.trans (by decide), h3⟩
  · exact ((claim_c4 [kobjA, kobjB, kobjC] "0" opFailB opFailB).1 (by decide)).1
  · exact ((claim_c4 [kobjA, kobjB, kobjC] "4" opFailB (fun _ => Except.ok ())).1
      (by decide)).2

/-- One container status counts as waiting exactly when a state is present
that is waiting in the claim's sense. -/
theorem waiting_pred_iff (cs : ContainerStatus) :
    (match cs.state with
     | some state =>
       state.waiting.isSome || (state.running.isNone && state.terminated.isNone)
     | none => false) = true
      ↔ ∃ st, cs.state = some st ∧ waitingStateSpec st := by
  cases hst : cs.state with
  | none => simp
  | some st =>
    simp only [Option.some.injEq]
    constructor
    · intro hpred
      refine ⟨st, rfl, ?_⟩
      unfold waitingStateSpec
      cases hw : st.waiting with
      | some u => exact Or.inl (by simp [hw])
      | none =>
        rw [hw] at hpred
        simp only [Option.isSome_none, Bool.false_or, Bool.and_eq_true,
          Option.isNone_iff_eq_none] at hpred
        exact Or.inr ⟨hpred.1, hpred.2, rfl⟩
    · rintro ⟨st', rfl, hspec⟩
      unfold waitingStateSpec at hspec
      rcases hspec with hw | ⟨hr, ht, _⟩
      · simp [hw]
      · simp [hr, ht]

/-- has_waiting holds exactly when the pod has a container status in a
waiting state in the claim's sense. -/
theorem has_waiting_iff (p : Pod) : has_waiting p = true ↔ has_waitingSpec p := by
  unfold has_waiting has_waitingSpec
  cases hs : p.status with
  | none => simp [hs]
  | some stat =>
    cases hc : stat.container_statuses with
    | none => simp [hs, hc]
    | some css =>
      simp only [hs, hc, Option.some_bind, Option.some.injEq, List.any_eq_true]
      constructor
      · rintro ⟨cs, hcs, hpred⟩
        exact ⟨stat, rfl, css, hc, cs, hcs, (waiting_pred_iff cs).mp hpred⟩
      · rintro ⟨stat', rfl, css', hcss', cs, hcs, hspec⟩
        rw [hc] at hcss'
        obtain rfl : css = css' := by injection hcss'
        exact ⟨cs, hcs, (waiting_pred_iff cs).mpr hspec⟩

/-- C8: pod_status always returns Some cell; its text is chosen by the
precedence deletion-timestamp → Terminating, some waiting container (a
present state with waiting set, or with running, terminated and waiting all
absent) → ContainerCreating, otherwise the reported phase or Unknown; the
foreground color always comes from the semantic color set, and any status
text not matched by a named arm maps to Danger. -/
theorem claim_c8 :
    ∀ (p : Pod),
    (has_waiting p = true ↔ has_waitingSpec p) ∧
    (p.metadata.deletion_timestamp ≠ none →
      pod_status p = some (CellSpec.with_colors "Terminating"
        (some (phase_style_color "Terminating")) none)) ∧
    (p.metadata.deletion_timestamp = none → has_waitingSpec p →
      pod_status p = some (CellSpec.with_colors "ContainerCreating"
        (some (phase_style_color "ContainerCreating")) none)) ∧
    (∀ ph, p.metadata.deletion_timestamp = none → ¬ has_waitingSpec p →
      (p.status.bind fun stat => stat.phase) = some ph →
      pod_status p = some (CellSpec.with_colors ph (some (phase_style_color ph)) none)) ∧
    (p.metadata.deletion_timestamp = none → ¬ has_waitingSpec p →
      (p.status.bind fun stat => stat.phase) = none →
      pod_status p = some (CellSpec.with_colors "Unknown"
        (some (phase_style_color "Unknown")) none)) ∧
    (∀ s, phase_style_color s = ColorType.success ∨ phase_style_color s = ColorType.warn ∨
      phase_style_color s = ColorType.danger ∨ phase_style_color s = ColorType.info) ∧
    (∀ s, s ∉ recognizedPhases → phase_style_color s = ColorType.danger) := by
  intro p
  refine ⟨has_waiting_iff p, ?_, ?_, ?_, ?_, ?_, ?_⟩
  · intro hdel
    have : p.metadata.deletion_timestamp.isSome = true :=
      Option.isSome_iff_ne_none.mpr hdel
    simp [pod_status, this]
  · intro hdel hw
    have h1 : p.metadata.deletion_timestamp.isSome = false := by simp [hdel]
    have h2 : has_waiting p = true := (has_waiting_iff p).mpr hw
    simp [pod_status, h1, h2]
  · intro ph hdel hw hph
    have h1 : p.metadata.deletion_timestamp.isSome = false := by simp [hdel]
    have h2 : has_waiting p = false := by
      rw [← Bool.not_eq_true]
      exact fun hh => hw ((has_waiting_iff p).mp hh)
    simp [pod_status, h1, h2, hph]
  · intro hdel hw hph
    have h1 : p.metadata.deletion_timestamp.isSome = false := by simp [hdel]
    have h2 : has_waiting p = false := by
      rw [← Bool.not_eq_true]
      exact fun hh => hw ((has_waiting_iff p).mp hh)
    simp [pod_status, h1, h2, hph]
  · intro s
    unfold phase_style_color
    split_ifs <;> simp
  · intro s hs
    simp only [recognizedPhases, List.mem_cons, List.not_mem_nil, or_false] at hs
    push_neg at hs
    obtain ⟨h1, h2, h3, h4, h5, h6, h7, h8, h9⟩ := hs
    simp [phase_style_color, h1, h2, h3, h4, h5, h6, h7, h8, h9]

/-- C8, witness: a pod with a deletion timestamp shows Terminating colored
Danger, and an unrecognized status text maps to Danger. -/
theorem claim_c8_witness :
    pod_status termPod = some (CellSpec.with_colors "Terminating" (some ColorType.danger) none) ∧
    phase_style_color "Bogus" = ColorType.danger := by
  constructor
  · exact (claim_c8 termPod).2.1 (by decide)
  · exact (claim_c8 termPod).2.2.2.2.2.2 "Bogus" (by decide)

/-- The loop body of last_restart keeps the running maximum of the
finished_at chain values. -/
theorem if_gt_eq_max (last fin : Int) :
    (if fin > last then some fin else some last) = some (max last fin) := by
  rcases lt_trichotomy last fin with h | h | h
  · rw [if_pos h, max_eq_right h.le]
  · rw [h, if_neg (lt_irrefl fin), max_self]
  · rw [if_neg (not_lt.mpr h.le), max_eq_left h.le]

/-- The loop body of last_restart in terms of the finished_at chain value:
it keeps the running maximum. -/
theorem lrStep_eq (acc : Option Int) (cs : ContainerStatus) :
    lrStep acc cs
      = match extractFin cs with
        | some fin =>
          some (match acc with
                | none => fin
                | some last => max last fin)
        | none => acc := by
  obtain ⟨nm, rdy, rc, st, last_state⟩ := cs
  cases last_state with
  | none => rfl
  | some state =>
    obtain ⟨running, terminated, waiting⟩ := state
    cases terminated with
    | none => rfl
    | some term =>
      obtain ⟨finished_at⟩ := term
      cases finished_at with
      | none => rfl
      | some fin =>
        cases acc with
        | none => rfl
        | some last =>
          show (if fin > last then some fin else some last) = some (max last fin)
          exact if_gt_eq_max last fin

/-- Folding last_restart's loop over the statuses computes the running
maximum of all finished_at values. -/
theorem foldl_lrStep (css : List ContainerStatus) :
    ∀ acc, css.foldl lrStep acc = optMax acc (lastTerminatedFinishes css) := by
  induction css with
  | nil => intro acc; rfl
  | cons cs rest ih =>
    intro acc
    rw [List.foldl_cons, ih, lrStep_eq]
    unfold lastTerminatedFinishes
    rw [List.filterMap_cons]
    cases hef : extractFin cs with
    | none => rfl
    | some fin => rfl

/-- Seeded running maximum in terms of the list fold of max. -/
theorem optMax_some (x : Int) (l : List Int) : optMax (some x) l = some (l.foldl max x) := by
  induction l generalizing x with
  | nil => rfl
  | cons t ts ih =>
    have h : optMax (some x) (t :: ts) = optMax (some (max x t)) ts := rfl
    rw [h, ih, List.foldl_cons]

/-- Unseeded running maximum of a non-empty list. -/
theorem optMax_none_cons (t : Int) (ts : List Int) :
    optMax none (t :: ts) = some (ts.foldl max t) := by
  have h : optMax none (t :: ts) = optMax (some t) ts := rfl
  rw [h, optMax_some]

/-- The fold of max lands on its seed or on a list member. -/
theorem foldl_max_mem (ts : List Int) : ∀ x, ts.foldl max x = x ∨ ts.foldl max x ∈ ts := by
  induction ts with
  | nil => intro x; exact Or.inl rfl
  | cons t ts ih =>
    intro x
    rw [List.foldl_cons]
    rcases ih (max x t) with h | h
    · rw [h]
      rcases max_choice x t with h2 | h2
      · exact Or.inl h2
      · exact Or.inr (by rw [h2]; exact List.mem_cons_self t ts)
    · exact Or.inr (List.mem_cons_of_mem t h)

/-- The fold of max bounds its seed and every list member. -/
theorem le_foldl_max (ts : List Int) :
    ∀ x, x ≤ ts.foldl max x ∧ ∀ u ∈ ts, u ≤ ts.foldl max x := by
  induction ts with
  | nil => intro x; exact ⟨le_refl x, by simp⟩
  | cons t ts ih =>
    intro x
    rw [List.foldl_cons]
    refine ⟨le_trans (le_max_left x t) (ih (max x t)).1, ?_⟩
    intro u hu
    rcases List.mem_cons.mp hu with rfl | hu
    · exact le_trans (le_max_right x u) (ih (max x u)).1
    · exact (ih (max x t)).2 u hu

/-- C9: last_restart renders the timestamp computed by last_restart_time; it
is None exactly when the pod has no status or no container status carries a
last terminated state with a finished_at; and when it returns a value, that
value is a finished_at of some container and is at least every other one —
the most recent finished_at over all container statuses. -/
theorem claim_c9 :
    ∀ (p : Pod),
    last_restart p = p.status.bind (fun stat => (last_restart_time stat).map cellOfTime) ∧
    (p.status = none → last_restart p = none) ∧
    ∀ stat, p.status = some stat →
      (last_restart p = none ↔
        lastTerminatedFinishes (stat.container_statuses.getD []) = []) ∧
      (∀ t, last_restart_time stat = some t →
        last_restart p = some (cellOfTime t) ∧
        t ∈ lastTerminatedFinishes (stat.container_statuses.getD []) ∧
        ∀ u ∈ lastTerminatedFinishes (stat.container_statuses.getD []), u ≤ t) ∧
      (lastTerminatedFinishes (stat.container_statuses.getD []) ≠ [] →
        ∃ t, last_restart_time stat = some t) := by
  intro p
  have hbody : last_restart p
      = p.status.bind (fun stat => (last_restart_time stat).map cellOfTime) := rfl
  refine ⟨hbody, ?_, ?_⟩
  · intro h; rw [hbody, h]; rfl
  · intro stat hstat
    have hlr : last_restart p = (last_restart_time stat).map cellOfTime := by
      rw [hbody, hstat]; rfl
    cases hc : stat.container_statuses with
    | none =>
      have htime : last_restart_time stat = none := by
        unfold last_restart_time; rw [hc]
      refine ⟨?_, ?_, ?_⟩
      · rw [hlr, htime]; simp [lastTerminatedFinishes]
      · intro t ht; rw [htime] at ht; exact absurd ht (by simp)
      · intro h; exact absurd rfl h
    | some css =>
      have htime : last_restart_time stat = optMax none (lastTerminatedFinishes css) := by
        unfold last_restart_time; rw [hc]; exact foldl_lrStep css none
      cases hl : lastTerminatedFinishes css with
      | nil =>
        have htn : last_restart_time stat = none := by rw [htime, hl]; rfl
        refine ⟨?_, ?_, ?_⟩
        · rw [hlr, htn]
          show Option.map cellOfTime none = none ↔ lastTerminatedFinishes css = []
          simp [hl]
        · intro t ht; rw [htn] at ht; exact absurd ht (by simp)
        · intro h; exact absurd hl h
      | cons a as =>
        have hts : last_restart_time stat = some (as.foldl max a) := by
          rw [htime, hl, optMax_none_cons]
        refine ⟨?_, ?_, ?_⟩
        · rw [hlr, hts]
          show Option.map cellOfTime (some (as.foldl max a)) = none
            ↔ lastTerminatedFinishes css = []
          simp [hl]
        · intro t ht
          rw [hts] at ht
          obtain rfl : as.foldl max a = t := by injection ht
          refine ⟨by rw [hlr, hts]; rfl, ?_, ?_⟩
          · show List.foldl max a as ∈ lastTerminatedFinishes css
            rw [hl]
            rcases foldl_max_mem as a with h | h
            · rw [h]; exact List.mem_cons_self a as
            · exact List.mem_cons_of_mem a h
          · intro u hu
            have hu' : u ∈ lastTerminatedFinishes css := hu
            rw [hl] at hu'
            rcases List.mem_cons.mp hu' with rfl | hu2
            · exact (le_foldl_max as u).1
            · exact (le_foldl_max as a).2 u hu2
        · intro _; exact ⟨as.foldl max a, hts⟩

/-- C9, witness: a pod whose two containers last finished at 5 and 9 has
Last Restart 9, which is one of the finished_at values and at least the
other. -/
theorem claim_c9_witness :
    last_restart lrPod = some (cellOfTime 9) ∧
    (9 : Int) ∈ lastTerminatedFinishes
      ((({ container_statuses := some [finishedCS 5, finishedCS 9]
           phase := some "Running"
           pod_ip := none
           nominated_node_name := none } : PodStatus).container_statuses).getD []) := by
  have h := ((claim_c9 lrPod).2.2
    { container_statuses := some [finishedCS 5, finishedCS 9]
      phase := some "Running"
      pod_ip := none
      nominated_node_name := none } rfl).2.1 9 (by decide)
  exact ⟨h.1, h.2.1⟩

end Click
